import Mathlib

/-!
Verification of the retrieval-augmented answering pipeline.

A shallow embedding of the `ai-research-assistant` repository: the frontend
API client (`frontend/src/services/api.js`), the chat submit handler and
source rendering (`frontend/src/App.jsx`), the upload handler
(`frontend/src/components/UploadPapers.jsx`), and — for the backend modules
that are not among the provided sources (`src/chunker.py`,
`src/endee_store.py`, `src/rag_pipeline.py`) — definitions modelled from the
specification's component design (segmenter chunking loop, cosine-similarity
vector search, retriever, answer composer).

Vector components are embedded as rationals; cosine similarity, which divides
by a product of Euclidean norms, takes values in the reals.
-/

namespace RAG

/-! ## Vector arithmetic -/

/-- Modelled from the spec: the dot product `dot(a, b)` used by the vector
index's cosine similarity (the index implementation `src/endee_store.py` is
not among the provided sources). Componentwise product, summed. -/
def dot (a b : List ℚ) : ℚ :=
  (List.zipWith (· * ·) a b).sum

/-- Squared Euclidean norm of a vector: `dot(a, a)`. -/
def normSq (a : List ℚ) : ℚ :=
  dot a a

/-- The Euclidean norm `‖a‖` of a vector, as a real number. -/
noncomputable def vnorm (a : List ℚ) : ℝ :=
  Real.sqrt (normSq a)

/-- Modelled from the spec: cosine similarity
`dot(a,b) / (‖a‖ * ‖b‖)`, with the degenerate zero-vector case treated as
similarity 0 (the implementation `src/endee_store.py` is not among the
provided sources). -/
noncomputable def cosineSim (a b : List ℚ) : ℝ :=
  if normSq a = 0 ∨ normSq b = 0 then 0
  else (dot a b : ℝ) / (Real.sqrt (normSq a) * Real.sqrt (normSq b))

/-! ## Segmenter chunking -/

/-- Modelled from the spec: the Segmenter's chunking loop over one section's
text (`src/chunker.py` is not among the provided sources): repeatedly slice
`[offset, offset + chunkSize)`, advance `offset` by `chunkSize - overlap`,
stop when `offset >= len(text)`.  The spec's invariant `overlap < chunkSize`
("prevents infinite loop") is part of the guard so that the function is
total; under that invariant the guard agrees with the loop's own stopping
condition. -/
def chunkLoop (text : List Char) (chunkSize overlap offset : ℕ) :
    List (List Char) :=
  if h : offset < text.length ∧ overlap < chunkSize then
    (text.drop offset).take chunkSize ::
      chunkLoop text chunkSize overlap (offset + (chunkSize - overlap))
  else []
termination_by text.length - offset
decreasing_by
  have h1 : 0 < chunkSize - overlap := Nat.sub_pos_of_lt h.2
  omega

/-- Chunking a section's text starts the loop at offset 0. -/
def chunkSection (text : List Char) (chunkSize overlap : ℕ) :
    List (List Char) :=
  chunkLoop text chunkSize overlap 0

/-- Removing the declared overlap from every chunk after the first. -/
def dropOverlap (overlap : ℕ) : List (List Char) → List (List Char)
  | [] => []
  | c :: rest => c :: rest.map (List.drop overlap)

/-! ## Vector index -/

/-- Modelled from the spec: a stored vector record — an embedding plus its
full provenance (`src/endee_store.py` is not among the provided sources). -/
structure VectorRecord where
  docId : String
  seqIndex : ℕ
  sectionName : String
  page : ℕ
  text : String
  embedding : List ℚ

/-- Ranking order on score-tagged entries `(insertionPosition, record,
score)`: strictly higher score first, ties broken by earlier insertion
position. -/
def rankLE (x y : ℕ × VectorRecord × ℝ) : Prop :=
  y.2.2 < x.2.2 ∨ (x.2.2 = y.2.2 ∧ x.1 ≤ y.1)

noncomputable instance rankLE.instDecidableRel : DecidableRel rankLE :=
  fun x y =>
    inferInstanceAs (Decidable (y.2.2 < x.2.2 ∨ (x.2.2 = y.2.2 ∧ x.1 ≤ y.1)))

instance rankLE.instIsTotal : IsTotal (ℕ × VectorRecord × ℝ) rankLE where
  total x y := by
    rcases lt_trichotomy x.2.2 y.2.2 with h | h | h
    · exact Or.inr (Or.inl h)
    · rcases Nat.le_total x.1 y.1 with h1 | h1
      · exact Or.inl (Or.inr ⟨h, h1⟩)
      · exact Or.inr (Or.inr ⟨h.symm, h1⟩)
    · exact Or.inl (Or.inl h)

instance rankLE.instIsTrans : IsTrans (ℕ × VectorRecord × ℝ) rankLE where
  trans x y z hxy hyz := by
    rcases hxy with h1 | ⟨h1, h1i⟩ <;> rcases hyz with h2 | ⟨h2, h2i⟩
    · exact Or.inl (h2.trans h1)
    · exact Or.inl (h2 ▸ h1)
    · exact Or.inl (h2.trans_eq h1.symm)
    · exact Or.inr ⟨h1.trans h2, h1i.trans h2i⟩

/-- Modelled from the spec: `search(queryVector, k, minSimilarity)` of the
vector index, with the insertion position kept alongside each result
(`src/endee_store.py` is not among the provided sources).  Every stored
vector is scored by cosine similarity against the query, scores below the
threshold are discarded, the survivors are sorted by descending score with
ties broken by insertion order (insertion sort is stable), and the first
`k` results are returned. -/
noncomputable def searchIndexed (store : List VectorRecord) (q : List ℚ)
    (k : ℕ) (t : ℝ) : List (ℕ × VectorRecord × ℝ) :=
  let scored := store.enum.map fun p => (p.1, p.2, cosineSim q p.2.embedding)
  let kept := scored.filter fun p => decide (t ≤ p.2.2)
  (List.insertionSort rankLE kept).take k

/-- The retrieval result: the records with their scores, without the
bookkeeping insertion positions. -/
noncomputable def search (store : List VectorRecord) (q : List ℚ) (k : ℕ)
    (t : ℝ) : List (VectorRecord × ℝ) :=
  (searchIndexed store q k t).map fun p => p.2

/-! ## Frontend: API client, chat interface, upload -/

/-- Whitespace as removed by JavaScript's `String.prototype.trim` (the
common ASCII whitespace characters; for the questions at issue the rarer
Unicode space characters do not occur). -/
def isWhitespaceChar (c : Char) : Bool :=
  c = ' ' || c = '\t' || c = '\n' || c = '\r'

/-- JavaScript's `question.trim()` as used in `App.jsx`: strip leading and
trailing whitespace. -/
def jsTrim (s : String) : String :=
  ⟨((s.data.dropWhile isWhitespaceChar).reverse.dropWhile
      isWhitespaceChar).reverse⟩

/-- The JSON body `api.queryPapers` posts to `/api/query`
(`frontend/src/services/api.js`): `{ question, top_k: topK }`. -/
structure QueryRequest where
  question : String
  top_k : ℕ
deriving DecidableEq

/-- The client call `queryPapers(question, topK = 5)`: builds the request
body; the second parameter defaults to 5 when the caller does not pass it. -/
def queryPapers (question : String) (topK : ℕ := 5) : QueryRequest :=
  { question := question, top_k := topK }

/-- One source entry of a query response, as the client reads it
(`result.sources` in `App.jsx`): paper, section, page (absent in some
responses), similarity score, excerpt. -/
structure Source where
  paper : String
  sectionName : String
  page : Option ℕ
  similarity_score : ℚ
  excerpt : String
deriving DecidableEq

/-- A chat message (`messages` in `App.jsx`): the user's question, or an
assistant answer carrying its source list. -/
inductive Message where
  | question (content : String)
  | answer (content : String) (sources : List Source)
deriving DecidableEq

/-- Outcome of the `api.queryPapers` call as `handleSubmit` observes it:
the parsed response on success, the thrown error's message on failure. -/
inductive ApiResult where
  | success (answer : String) (sources : List Source)
  | failure (errMsg : String)
deriving DecidableEq

/-- The `ChatInterface` state read by `handleSubmit`. -/
structure ChatState where
  messages : List Message
  question : String
  loading : Bool
deriving DecidableEq

/-- The handler `handleSubmit` (`App.jsx` lines 81–120): returns the final state and the
list of query requests sent.  An empty trimmed question or an in-flight
request returns unchanged with no API call; otherwise the trimmed question
is appended to the log, `api.queryPapers(userQuestion)` is called (with the
default `top_k`), and the response's answer — or, when the call throws, an
error answer with an empty source list — is appended after it. -/
def handleSubmit (st : ChatState) (outcome : ApiResult) :
    ChatState × List QueryRequest :=
  if (jsTrim st.question).isEmpty || st.loading then (st, [])
  else
    let q := jsTrim st.question
    let newMessages := st.messages ++ [Message.question q]
    let final :=
      match outcome with
      | ApiResult.success ans srcs => newMessages ++ [Message.answer ans srcs]
      | ApiResult.failure err =>
          newMessages ++ [Message.answer ("❌ Error: " ++ err) []]
    ({ messages := final, question := "", loading := false },
      [queryPapers q])

/-- The question/answer alternation of the chat log: a (possibly empty)
sequence of question–answer pairs. -/
def isQA : List Message → Bool
  | [] => true
  | Message.question _ :: Message.answer _ _ :: rest => isQA rest
  | _ => false

/-- One rendered source card (`App.jsx` lines 188–204): 1-based position,
paper and section names, the similarity badge's score, the page display
(`source.page || 'N/A'` — `none` stands for the `'N/A'` fallback, which a
falsy page also takes), and the 150-character excerpt head. -/
structure SourceCard where
  position : ℕ
  paper : String
  sectionName : String
  similarity_score : ℚ
  pageDisplay : Option ℕ
  excerptHead : List Char
deriving DecidableEq

/-- The sources block renders `msg.sources.map((source, i) => …)`, in
order. -/
def renderSources (sources : List Source) : List SourceCard :=
  sources.enum.map fun p =>
    { position := p.1 + 1
      paper := p.2.paper
      sectionName := p.2.sectionName
      similarity_score := p.2.similarity_score
      pageDisplay :=
        match p.2.page with
        | none => none
        | some 0 => none
        | some n => some n
      excerptHead := p.2.excerpt.data.take 150 }

/-- Status banner of `UploadPapers` (its `status` state, once set). -/
inductive UploadStatus where
  | error (message : String)
  | success (message : String)
deriving DecidableEq

/-- The check `file.name.endsWith(".pdf")` of `UploadPapers.jsx`. -/
def endsWithPdf (name : String) : Bool :=
  ".pdf".data.isSuffixOf name.data

/-- The handler `uploadFile` (`UploadPapers.jsx` lines 49–68): a filename that does not
end in `.pdf` sets the error status and returns before `api.uploadPaper` is
called; otherwise the upload result (or the thrown error's message) becomes
the status.  Returns the status and how many upload API calls were made. -/
def uploadFile (fileName : String) (apiResult : Except String String) :
    UploadStatus × ℕ :=
  if !endsWithPdf fileName then
    (UploadStatus.error "Only PDF files are allowed", 0)
  else
    match apiResult with
    | Except.ok msg => (UploadStatus.success msg, 1)
    | Except.error e => (UploadStatus.error e, 1)

/-! ## Retriever and answer composer -/

/-- The query-rejection condition of the Retriever. -/
inductive QueryError where
  | invalidQuery
deriving DecidableEq

/-- Modelled from the spec: the Retriever (`src/rag_pipeline.py` is not
among the provided sources).  An empty or whitespace-only question fails
with `InvalidQuery` before the question is embedded; otherwise the question
is embedded once, `k` is clamped to the configured maximum `kMax`, and the
index is searched.  The second component counts embedding-backend calls. -/
noncomputable def retrieve (embedQuery : String → List ℚ)
    (store : List VectorRecord) (kMax k : ℕ) (t : ℝ) (question : String) :
    Except QueryError (List (VectorRecord × ℝ)) × ℕ :=
  if (jsTrim question).isEmpty then
    (Except.error QueryError.invalidQuery, 0)
  else
    (Except.ok (search store (embedQuery question) (min k kMax) t), 1)

/-- Modelled from the spec: the Answer Composer (`src/rag_pipeline.py` is
not among the provided sources).  `generate` stands for the generation
backend and receives exactly the ordered retrieval result as its context
block.  On an empty retrieval result a fixed "no relevant content found"
answer with no sources is produced and the backend is not called; otherwise
the backend's output is returned verbatim together with the same ordered
sources that were sent as context.  The second component counts
generation-backend calls. -/
def composeAnswer (generate : List (VectorRecord × ℝ) → String → String)
    (question : String) (result : List (VectorRecord × ℝ)) :
    (String × List (VectorRecord × ℝ)) × ℕ :=
  if result.isEmpty then
    (("No relevant content found in the papers.", []), 0)
  else
    ((generate result question, result), 1)

/-! ## Helper lemmas -/

theorem dot_cons_cons (x y : ℚ) (xs ys : List ℚ) :
    dot (x :: xs) (y :: ys) = x * y + dot xs ys := rfl

theorem dot_self_nonneg (a : List ℚ) : 0 ≤ dot a a := by
  induction a with
  | nil => simp [dot]
  | cons x xs ih =>
    rw [dot_cons_cons]
    have hx : 0 ≤ x * x := mul_self_nonneg x
    linarith

/-- Cauchy–Schwarz for the list dot product (`zipWith` truncates to the
shorter list, so the inequality also holds for vectors of unequal length). -/
theorem dot_sq_le_normSq_mul (a : List ℚ) :
    ∀ b : List ℚ, dot a b ^ 2 ≤ normSq a * normSq b := by
  induction a with
  | nil => intro b; simp [dot, normSq]
  | cons x xs ih =>
    intro b
    cases b with
    | nil => simp [dot, normSq]
    | cons y ys =>
      have hA : 0 ≤ dot xs xs := dot_self_nonneg xs
      have hB : 0 ≤ dot ys ys := dot_self_nonneg ys
      have hd := ih ys
      simp only [normSq, dot_cons_cons] at *
      have h1 : 0 ≤ dot xs xs * dot ys ys - dot xs ys ^ 2 := by linarith
      rcases hB.eq_or_lt with hB0 | hBpos
      · have hd0 : dot xs ys = 0 := by nlinarith [sq_nonneg (dot xs ys)]
        rw [hd0, ← hB0]
        nlinarith [mul_nonneg hA (sq_nonneg y)]
      · nlinarith [mul_nonneg hBpos.le h1, mul_nonneg (sq_nonneg y) h1,
          sq_nonneg (dot xs ys * y - dot ys ys * x)]

theorem vnorm_eq_zero_iff (a : List ℚ) : vnorm a = 0 ↔ normSq a = 0 := by
  have hA : (0 : ℝ) ≤ (normSq a : ℝ) := by
    exact_mod_cast dot_self_nonneg a
  rw [vnorm, Real.sqrt_eq_zero hA]
  exact_mod_cast Iff.rfl

theorem abs_dot_le (a b : List ℚ) :
    |(dot a b : ℝ)| ≤ Real.sqrt (normSq a) * Real.sqrt (normSq b) := by
  have hA : (0 : ℝ) ≤ (normSq a : ℝ) := by exact_mod_cast dot_self_nonneg a
  have hcs : ((dot a b : ℝ)) ^ 2 ≤ (normSq a : ℝ) * (normSq b : ℝ) := by
    exact_mod_cast dot_sq_le_normSq_mul a b
  calc |(dot a b : ℝ)| = Real.sqrt ((dot a b : ℝ) ^ 2) :=
        (Real.sqrt_sq_eq_abs _).symm
    _ ≤ Real.sqrt ((normSq a : ℝ) * (normSq b : ℝ)) := Real.sqrt_le_sqrt hcs
    _ = Real.sqrt (normSq a) * Real.sqrt (normSq b) := Real.sqrt_mul hA _

theorem chunkLoop_map_drop_flatten (text : List Char) (cs ov offset : ℕ) :
    ov < cs →
    ((chunkLoop text cs ov offset).map (List.drop ov)).flatten
      = text.drop (offset + ov) := by
  refine chunkLoop.induct text cs ov
    (fun off => ov < cs →
      ((chunkLoop text cs ov off).map (List.drop ov)).flatten
        = text.drop (off + ov))
    (fun x h ih => ?_) (fun x h => ?_) offset
  · intro hov
    show ((chunkLoop text cs ov x).map (List.drop ov)).flatten
      = text.drop (x + ov)
    rw [chunkLoop.eq_def, dif_pos h, List.map_cons, List.flatten_cons, ih hov]
    have h1 : ((text.drop x).take cs).drop ov
        = (text.drop (x + ov)).take (cs - ov) := by
      rw [List.drop_take, List.drop_drop]
    have h2 : text.drop (x + (cs - ov) + ov)
        = (text.drop (x + ov)).drop (cs - ov) := by
      rw [List.drop_drop]
      congr 1
      omega
    rw [h1, h2, List.take_append_drop]
  · intro hov
    show ((chunkLoop text cs ov x).map (List.drop ov)).flatten
      = text.drop (x + ov)
    rw [chunkLoop.eq_def, dif_neg h, List.map_nil, List.flatten_nil]
    have hlen : text.length ≤ x + ov := by
      rcases Nat.lt_or_ge x text.length with h1 | h1
      · exact absurd ⟨h1, hov⟩ h
      · omega
    exact (List.drop_eq_nil_of_le hlen).symm

theorem chunkLoop_length_le (text : List Char) (cs ov offset : ℕ) :
    (chunkLoop text cs ov offset).length ≤ text.length - offset := by
  refine chunkLoop.induct text cs ov
    (fun off => (chunkLoop text cs ov off).length ≤ text.length - off)
    (fun x h ih => ?_) (fun x h => ?_) offset
  · show (chunkLoop text cs ov x).length ≤ text.length - x
    rw [chunkLoop.eq_def, dif_pos h, List.length_cons]
    have h1 : 0 < cs - ov := Nat.sub_pos_of_lt h.2
    omega
  · show (chunkLoop text cs ov x).length ≤ text.length - x
    rw [chunkLoop.eq_def, dif_neg h]
    simp

theorem chunkSection_singleton (text : List Char) (cs ov : ℕ) (hov : ov < cs)
    (hpos : 0 < text.length) (hshort : text.length ≤ cs - ov) :
    chunkSection text cs ov = [text] := by
  rw [chunkSection, chunkLoop.eq_def, dif_pos ⟨hpos, hov⟩]
  have hneg : ¬(0 + (cs - ov) < text.length ∧ ov < cs) := by omega
  have hstop : chunkLoop text cs ov (0 + (cs - ov)) = [] := by
    rw [chunkLoop.eq_def, dif_neg hneg]
  rw [hstop, List.drop_zero, List.take_of_length_le (by omega)]

theorem jsTrim_empty_of_ws (s : String)
    (h : ∀ c ∈ s.data, isWhitespaceChar c = true) :
    (jsTrim s).isEmpty = true := by
  have h1 : s.data.dropWhile isWhitespaceChar = [] :=
    List.dropWhile_eq_nil_iff.mpr h
  rw [jsTrim, h1]
  rfl

theorem isQA_append_pair (l : List Message) (q a : String)
    (srcs : List Source) (h : isQA l = true) :
    isQA (l ++ [Message.question q, Message.answer a srcs]) = true := by
  induction l using isQA.induct with
  | case1 => rfl
  | case2 qc ac asrcs rest ih =>
    rw [List.cons_append, List.cons_append, isQA]
    rw [isQA] at h
    exact ih h
  | case3 l h1 h2 =>
    rw [isQA] at h
    · exact absurd h (by simp)
    · exact h1
    · exact h2

/-! ## Claim theorems -/

/-- C2: for every section text and every configuration whose overlap is
smaller than the chunk size, concatenating the chunk texts after removing
the declared overlap from every chunk after the first reconstructs the
section text exactly — no gaps, no duplication beyond the declared
overlap — and a nonempty section always yields its final (possibly short)
window. -/
theorem chunks_reconstruct_section (text : List Char) (cs ov : ℕ)
    (hov : ov < cs) :
    (dropOverlap ov (chunkSection text cs ov)).flatten = text ∧
      (text ≠ [] → chunkSection text cs ov ≠ []) := by
  constructor
  · by_cases h0 : 0 < text.length
    · rw [chunkSection, chunkLoop.eq_def, dif_pos ⟨h0, hov⟩]
      simp only [dropOverlap, List.flatten_cons]
      rw [chunkLoop_map_drop_flatten text cs ov _ hov]
      have he : 0 + (cs - ov) + ov = cs := by omega
      rw [he, List.drop_zero, List.take_append_drop]
    · have ht : text = [] := by
        cases text with
        | nil => rfl
        | cons c l => simp at h0
      subst ht
      rw [chunkSection, chunkLoop.eq_def, dif_neg (by simp)]
      rfl
  · intro hne
    have h0 : 0 < text.length := List.length_pos.mpr hne
    rw [chunkSection, chunkLoop.eq_def, dif_pos ⟨h0, hov⟩]
    simp

theorem chunks_reconstruct_section_witness :
    2 < 5 ∧
      (dropOverlap 2
          (chunkSection ['a', 'b', 'c', 'd', 'e', 'f', 'g'] 5 2)).flatten
        = ['a', 'b', 'c', 'd', 'e', 'f', 'g'] :=
  ⟨by norm_num,
    (chunks_reconstruct_section ['a', 'b', 'c', 'd', 'e', 'f', 'g'] 5 2
      (by norm_num)).1⟩

/-- C3 counterexample: with chunk size 5 and overlap 4 the two-character
section `['a','b']` is shorter than the overlap yet yields two chunks, not
one. -/
theorem chunk_short_section_cex :
    (['a', 'b'] : List Char).length < 4 ∧ (4 : ℕ) < 5 ∧
      chunkSection ['a', 'b'] 5 4 = [['a', 'b'], ['b']] := by
  refine ⟨by norm_num, by norm_num, ?_⟩
  simp [chunkSection, chunkLoop]

/-- C3 (amended): with the overlap smaller than the chunk size the chunking
loop terminates — the number of chunks is bounded by the text length — and
a nonempty section no longer than `chunkSize - overlap` yields exactly one
chunk containing the whole section.  (As stated the claim fails: a section
shorter than the overlap can still produce several chunks, e.g. chunk size
5, overlap 4, section length 2.) -/
theorem chunk_terminates_short_section (text : List Char) (cs ov : ℕ)
    (hov : ov < cs) :
    (chunkSection text cs ov).length ≤ text.length ∧
      (0 < text.length → text.length ≤ cs - ov →
        chunkSection text cs ov = [text]) := by
  constructor
  · have h := chunkLoop_length_le text cs ov 0
    simpa [chunkSection] using h
  · intro h1 h2
    exact chunkSection_singleton text cs ov hov h1 h2

theorem chunk_terminates_short_section_witness :
    2 < 5 ∧ (chunkSection ['a', 'b'] 5 2).length ≤ 2 ∧
      chunkSection ['a', 'b'] 5 2 = [['a', 'b']] := by
  have h := chunk_terminates_short_section ['a', 'b'] 5 2 (by norm_num)
  exact ⟨by norm_num, h.1, h.2 (by norm_num) (by norm_num)⟩

/-- C4: an empty retrieval result yields the successful "no relevant
content found" answer with an empty source list and zero generation-backend
calls, and the client renders an empty-sourced success as an ordinary
answer — a path distinct from the error path taken when the call fails. -/
theorem empty_retrieval_no_content_answer
    (generate : List (VectorRecord × ℝ) → String → String)
    (question ans err : String) (st : ChatState) :
    composeAnswer generate question []
        = (("No relevant content found in the papers.", []), 0) ∧
      ((jsTrim st.question).isEmpty = false → st.loading = false →
        (handleSubmit st (ApiResult.success ans [])).1.messages
            = st.messages ++ [Message.question (jsTrim st.question),
                Message.answer ans []] ∧
          (handleSubmit st (ApiResult.failure err)).1.messages
            = st.messages ++ [Message.question (jsTrim st.question),
                Message.answer ("❌ Error: " ++ err) []]) := by
  refine ⟨rfl, fun hq hl => ⟨?_, ?_⟩⟩ <;> simp [handleSubmit, hq, hl]

/-- C5: a question that is empty or consists only of whitespace is rejected
before any embedding or backend call: the retriever fails with
`InvalidQuery` having made zero embedding calls, and the client submit
handler leaves its state unchanged and issues no API request. -/
theorem whitespace_question_rejected (embedQuery : String → List ℚ)
    (store : List VectorRecord) (kMax k : ℕ) (t : ℝ) (question : String)
    (st : ChatState) (outcome : ApiResult)
    (hq : ∀ c ∈ question.data, isWhitespaceChar c = true)
    (hst : ∀ c ∈ st.question.data, isWhitespaceChar c = true) :
    retrieve embedQuery store kMax k t question
        = (Except.error QueryError.invalidQuery, 0) ∧
      handleSubmit st outcome = (st, []) := by
  have h1 : (jsTrim question).isEmpty = true := jsTrim_empty_of_ws _ hq
  have h2 : (jsTrim st.question).isEmpty = true := jsTrim_empty_of_ws _ hst
  constructor
  · rw [retrieve, if_pos (by simp [h1])]
  · simp [handleSubmit, h2]

theorem whitespace_question_rejected_witness :
    retrieve (fun _ => []) [] 50 5 0 "  "
        = (Except.error QueryError.invalidQuery, 0) ∧
      handleSubmit ⟨[], " ", false⟩ (ApiResult.failure "e")
        = (⟨[], " ", false⟩, []) :=
  whitespace_question_rejected (fun _ => []) [] 50 5 0 "  "
    ⟨[], " ", false⟩ (ApiResult.failure "e") (by decide) (by decide)

/-- C6: when the caller does not pass a result count, `queryPapers` sends
`top_k = 5`: the default request for any question has `top_k = 5` and
carries the question unchanged, and every request the submit handler
actually issues uses that default. -/
theorem queryPapers_default_top_k (q : String) (st : ChatState)
    (outcome : ApiResult) :
    (queryPapers q).top_k = 5 ∧ (queryPapers q).question = q ∧
      ∀ r ∈ (handleSubmit st outcome).2, r.top_k = 5 := by
  refine ⟨rfl, rfl, fun r hr => ?_⟩
  by_cases hc : ((jsTrim st.question).isEmpty || st.loading) = true
  · simp [handleSubmit, hc] at hr
  · simp [handleSubmit, hc] at hr
    rw [hr]
    rfl

/-- C7: the sources attached to an answer are exactly the ordered retrieval
entries sent as context (the composer hands `generate` precisely `result`
and returns the same list), and the client renders the source cards in the
same order — position `i + 1` for the `i`-th source — each annotated with
its paper, section, page display, similarity score and excerpt head, with
no entry added, dropped or reordered. -/
theorem sources_order_preserved
    (generate : List (VectorRecord × ℝ) → String → String)
    (question : String) (result : List (VectorRecord × ℝ))
    (sources : List Source) (i : ℕ) :
    (result ≠ [] → composeAnswer generate question result
        = ((generate result question, result), 1)) ∧
      (renderSources sources).length = sources.length ∧
      (renderSources sources)[i]? = sources[i]?.map (fun s =>
        { position := i + 1
          paper := s.paper
          sectionName := s.sectionName
          similarity_score := s.similarity_score
          pageDisplay :=
            match s.page with
            | none => none
            | some 0 => none
            | some n => some n
          excerptHead := s.excerpt.data.take 150 }) := by
  refine ⟨fun hne => ?_, ?_, ?_⟩
  · rw [composeAnswer, if_neg (by simpa using hne)]
  · simp [renderSources]
  · simp only [renderSources, List.getElem?_map, List.getElem?_enum]
    cases sources[i]? <;> rfl

/-- C9: a file whose name does not end in `.pdf` makes `uploadFile` set the
"Only PDF files are allowed" error status and return without calling the
upload API. -/
theorem uploadFile_rejects_non_pdf (fileName : String)
    (apiResult : Except String String)
    (h : endsWithPdf fileName = false) :
    uploadFile fileName apiResult
      = (UploadStatus.error "Only PDF files are allowed", 0) := by
  simp [uploadFile, h]

theorem uploadFile_rejects_non_pdf_witness :
    endsWithPdf "notes.txt" = false ∧
      uploadFile "notes.txt" (Except.ok "uploaded")
        = (UploadStatus.error "Only PDF files are allowed", 0) :=
  ⟨by decide,
    uploadFile_rejects_non_pdf "notes.txt" (Except.ok "uploaded") (by decide)⟩

/-- C10: a submit with a non-whitespace question while no request is in
flight appends exactly the trimmed question and one answer — the backend's
answer with its sources on success, an error answer with empty sources on
failure — and the question/answer alternation of the log is preserved. -/
theorem handleSubmit_appends_pair (st : ChatState) (ans err : String)
    (srcs : List Source) (hq : (jsTrim st.question).isEmpty = false)
    (hl : st.loading = false) :
    (handleSubmit st (ApiResult.success ans srcs)).1.messages
        = st.messages ++ [Message.question (jsTrim st.question),
            Message.answer ans srcs] ∧
      (handleSubmit st (ApiResult.failure err)).1.messages
        = st.messages ++ [Message.question (jsTrim st.question),
            Message.answer ("❌ Error: " ++ err) []] ∧
      (isQA st.messages = true →
        ∀ outcome, isQA (handleSubmit st outcome).1.messages = true) := by
  refine ⟨by simp [handleSubmit, hq, hl], by simp [handleSubmit, hq, hl],
    fun hqa outcome => ?_⟩
  cases outcome with
  | success a s =>
    have he : (handleSubmit st (ApiResult.success a s)).1.messages
        = st.messages ++ [Message.question (jsTrim st.question),
            Message.answer a s] := by
      simp [handleSubmit, hq, hl]
    rw [he]
    exact isQA_append_pair _ _ _ _ hqa
  | failure e =>
    have he : (handleSubmit st (ApiResult.failure e)).1.messages
        = st.messages ++ [Message.question (jsTrim st.question),
            Message.answer ("❌ Error: " ++ e) []] := by
      simp [handleSubmit, hq, hl]
    rw [he]
    exact isQA_append_pair _ _ _ _ hqa

theorem handleSubmit_appends_pair_witness :
    (jsTrim "hi").isEmpty = false ∧
      (handleSubmit ⟨[], "hi", false⟩
          (ApiResult.success "fine" [])).1.messages
        = [Message.question "hi", Message.answer "fine" []] := by
  have h := handleSubmit_appends_pair ⟨[], "hi", false⟩ "fine" "e" []
    (by decide) rfl
  have hjs : jsTrim "hi" = "hi" := by decide
  refine ⟨by decide, ?_⟩
  have h1 := h.1
  rw [hjs] at h1
  simpa using h1

theorem mem_searchIndexed (store : List VectorRecord) (q : List ℚ) (k : ℕ)
    (t : ℝ) (p : ℕ × VectorRecord × ℝ)
    (hp : p ∈ searchIndexed store q k t) :
    t ≤ p.2.2 ∧ p.2.2 = cosineSim q p.2.1.embedding := by
  simp only [searchIndexed] at hp
  have hp1 := List.mem_of_mem_take hp
  rw [List.mem_insertionSort, List.mem_filter] at hp1
  obtain ⟨hmem, hcond⟩ := hp1
  refine ⟨of_decide_eq_true hcond, ?_⟩
  rw [List.mem_map] at hmem
  obtain ⟨pr, _, rfl⟩ := hmem
  rfl

theorem searchIndexed_pairwise_rank (store : List VectorRecord) (q : List ℚ)
    (k : ℕ) (t : ℝ) : (searchIndexed store q k t).Pairwise rankLE := by
  simp only [searchIndexed]
  exact (List.sorted_insertionSort rankLE _).sublist (List.take_sublist _ _)

theorem searchIndexed_nodup_fst (store : List VectorRecord) (q : List ℚ)
    (k : ℕ) (t : ℝ) :
    ((searchIndexed store q k t).map Prod.fst).Nodup := by
  simp only [searchIndexed]
  have h0 : (((store.enum.map
      fun p => (p.1, p.2, cosineSim q p.2.embedding))).map Prod.fst).Nodup := by
    rw [List.map_map]
    exact List.nodup_enum_map_fst store
  have h2 : ((((store.enum.map
        fun p => (p.1, p.2, cosineSim q p.2.embedding))).filter
          fun p => decide (t ≤ p.2.2)).map Prod.fst).Nodup :=
    h0.sublist ((List.filter_sublist _).map Prod.fst)
  have h4 : ((List.insertionSort rankLE (((store.enum.map
        fun p => (p.1, p.2, cosineSim q p.2.embedding))).filter
          fun p => decide (t ≤ p.2.2))).map Prod.fst).Nodup :=
    ((List.perm_insertionSort rankLE _).map Prod.fst).nodup_iff.mpr h2
  exact h4.sublist ((List.take_sublist _ _).map Prod.fst)

theorem searchIndexed_ties_insertion_order (store : List VectorRecord)
    (q : List ℚ) (k : ℕ) (t : ℝ) :
    (searchIndexed store q k t).Pairwise
      (fun x y => x.2.2 = y.2.2 → x.1 < y.1) := by
  have h1 := searchIndexed_pairwise_rank store q k t
  have h2 : (searchIndexed store q k t).Pairwise fun x y => x.1 ≠ y.1 := by
    have := searchIndexed_nodup_fst store q k t
    rw [List.Nodup, List.pairwise_map] at this
    exact this
  refine (h1.and h2).imp ?_
  rintro x y ⟨hr, hne⟩ heq
  rcases hr with hlt | ⟨_, hle⟩
  · rw [heq] at hlt
    exact absurd hlt (lt_irrefl _)
  · exact lt_of_le_of_ne hle hne

/-- C1: for every store, query vector, `k` and threshold `t`: `search`
returns at most `k` results; every returned score is the cosine similarity
of the query with the returned record's embedding and is at least `t`; the
scores are sorted in descending order; and equal-score results keep their
insertion order (smaller stored position first). -/
theorem search_top_k_sorted (store : List VectorRecord) (q : List ℚ)
    (k : ℕ) (t : ℝ) :
    (search store q k t).length ≤ k ∧
      (∀ p ∈ search store q k t,
        t ≤ p.2 ∧ p.2 = cosineSim q p.1.embedding) ∧
      (search store q k t).Pairwise (fun x y => y.2 ≤ x.2) ∧
      (searchIndexed store q k t).Pairwise
        (fun x y => x.2.2 = y.2.2 → x.1 < y.1) ∧
      search store q k t = (searchIndexed store q k t).map (fun p => p.2) := by
  refine ⟨?_, ?_, ?_, searchIndexed_ties_insertion_order store q k t, rfl⟩
  · rw [search, List.length_map, searchIndexed]
    simp only [List.length_take]
    exact min_le_left _ _
  · intro p hp
    rw [search, List.mem_map] at hp
    obtain ⟨pre, hpre, rfl⟩ := hp
    exact mem_searchIndexed store q k t pre hpre
  · rw [search, List.pairwise_map]
    exact (searchIndexed_pairwise_rank store q k t).imp
      (fun hr => by
        rcases hr with hlt | ⟨heq, _⟩
        · exact le_of_lt hlt
        · exact le_of_eq heq.symm)

/-- C8: cosine similarity equals `dot(a,b) / (‖a‖ * ‖b‖)` whenever both
norms are nonzero, is defined to be 0 whenever either norm is zero (so no
division by zero ever occurs), and always lies in `[-1, 1]`. -/
theorem cosineSim_range_and_zero_case (a b : List ℚ) :
    (-1 ≤ cosineSim a b ∧ cosineSim a b ≤ 1) ∧
      (vnorm a = 0 ∨ vnorm b = 0 → cosineSim a b = 0) ∧
      (vnorm a ≠ 0 → vnorm b ≠ 0 →
        cosineSim a b = (dot a b : ℝ) / (vnorm a * vnorm b)) := by
  refine ⟨?_, fun h => ?_, fun h1 h2 => ?_⟩
  · by_cases h : normSq a = 0 ∨ normSq b = 0
    · rw [cosineSim, if_pos h]
      norm_num
    · rw [cosineSim, if_neg h]
      push_neg at h
      have hAnn : 0 ≤ normSq a := dot_self_nonneg a
      have hBnn : 0 ≤ normSq b := dot_self_nonneg b
      have hA : (0 : ℝ) < (normSq a : ℝ) := by
        exact_mod_cast lt_of_le_of_ne hAnn (Ne.symm h.1)
      have hB : (0 : ℝ) < (normSq b : ℝ) := by
        exact_mod_cast lt_of_le_of_ne hBnn (Ne.symm h.2)
      have hden : 0 < Real.sqrt (normSq a) * Real.sqrt (normSq b) :=
        mul_pos (Real.sqrt_pos.mpr hA) (Real.sqrt_pos.mpr hB)
      have habs : |(dot a b : ℝ)
          / (Real.sqrt (normSq a) * Real.sqrt (normSq b))| ≤ 1 := by
        rw [abs_div, abs_of_pos hden]
        exact (div_le_one hden).mpr (abs_dot_le a b)
      exact abs_le.mp habs
  · have hc : normSq a = 0 ∨ normSq b = 0 := by
      rcases h with h | h
      · exact Or.inl ((vnorm_eq_zero_iff a).mp h)
      · exact Or.inr ((vnorm_eq_zero_iff b).mp h)
    rw [cosineSim, if_pos hc]
  · have hc : ¬(normSq a = 0 ∨ normSq b = 0) := by
      rintro (h | h)
      · exact h1 ((vnorm_eq_zero_iff a).mpr h)
      · exact h2 ((vnorm_eq_zero_iff b).mpr h)
    rw [cosineSim, if_neg hc, vnorm, vnorm]

end RAG
